import Mathlib

/-!
Verification of `version_from_tag.py`: a shallow embedding of the version
model, the tag validation rule engine and the header generation, together
with theorems settling the specified properties.

Machine integers are modelled as `Nat` (all values in the program are
non-negative), Python exceptions as `Except`/`Option` (`none` models an
uncaught exception such as `IndexError`, `ValueError` or
`UnboundLocalError`), and the mutable global warning list as an explicit
warning-list state threaded through the checks.
-/

deriving instance DecidableEq for Except

namespace VersionFromTag

/-- Embedding of the `Version` class: the numeric triple plus the optional
provenance fields taken by `Version.__init__`. -/
structure Version where
  major_ver : Nat
  minor_ver : Nat
  build_num : Nat
  creatordate : Option String := none
  sw_article_num : Option Nat := none
  sha1 : Option String := none
  tag_name : Option String := none
deriving DecidableEq

/-- Embedding of `self._version`, the flattened order key computed in
`Version.__init__`: `major_ver*10000 + minor_ver*100 + build_num`. -/
def Version.version (v : Version) : Nat :=
  v.major_ver * 10000 + v.minor_ver * 100 + v.build_num

/-- Embedding of the class constant `Version.first_test_version = 900000`. -/
def Version.first_test_version : Nat := 900000

/-- Embedding of `Version.is_kind`: the method returns a `bool` for the kinds
`"release"` and `"test"` and falls off the end (returning Python `None`)
for any other string, hence the `Option Bool` result. -/
def Version.is_kind (v : Version) (kind : String) : Option Bool :=
  if kind = "release" then some (decide (v.version < Version.first_test_version))
  else if kind = "test" then some (decide (v.version > Version.first_test_version))
  else none

/-- Truthiness of a Python value that is either a `bool` or `None`. -/
def truthy : Option Bool → Bool
  | some b => b
  | none => false

/-- Embedding of the `Version.kind` property. -/
def Version.kind (v : Version) : String :=
  if v.version < Version.first_test_version then "release" else "test"

/-- Embedding of `Version.__eq__`: order-key equality. -/
def Version.eq (a b : Version) : Bool := a.version == b.version

/-- Embedding of `Version.__gt__`. -/
def Version.gt (a b : Version) : Bool := decide (a.version > b.version)

/-- Embedding of `Version.__lt__`. -/
def Version.lt (a b : Version) : Bool := decide (a.version < b.version)

/-- Embedding of `Version.__le__`. -/
def Version.le (a b : Version) : Bool := decide (a.version ≤ b.version)

/-- Embedding of `Version.__ne__`. -/
def Version.ne (a b : Version) : Bool := decide (a.version ≠ b.version)

/-- Embedding of `Version.__ge__`. The source reads `self.verison`, a
misspelling of `self._version`; a `Version` object has no attribute of that
name, so every evaluation of `a >= b` raises `AttributeError` instead of
returning a comparison result. The embedding returns the error value. -/
def Version.ge (_ _ : Version) : Except String Bool :=
  .error "AttributeError: \x27Version\x27 object has no attribute \x27verison\x27"

/-- Embedding of the numeric part of `Version.next`: the rolled order key.
Called with a string outside the three roll kinds, the Python method leaves
`next_ver` unassigned and raises `UnboundLocalError`, hence `none`. -/
def Version.next_num (v : Version) (roll : String) : Option Nat :=
  if roll = "roll_major" then some (v.version + 10000 - v.version % 10000)
  else if roll = "roll_minor" then some (v.version + 100 - v.version % 100)
  else if roll = "roll_build" then some (v.version + 1)
  else none

/-- Embedding of `Version.next`: decomposes the rolled order key back into
major/minor/build; provenance is carried over except the tag name, which the
constructor call in the source leaves at its default `None`. -/
def Version.next (v : Version) (roll : String) : Option Version :=
  (v.next_num roll).map fun next_ver =>
    { major_ver := next_ver / 10000
      minor_ver := next_ver % 10000 / 100
      build_num := next_ver % 100
      creatordate := v.creatordate
      sw_article_num := v.sw_article_num
      sha1 := v.sha1
      tag_name := none }

/-- Zero-padded two-digit rendering used by `Version.__str__` (`{:02d}`). -/
def pad2 (n : Nat) : String :=
  if n < 10 then "0" ++ toString n else toString n

/-- Embedding of `Version.__str__`: `major.MM.BB` with two-digit padding of
minor and build. -/
def Version.str (v : Version) : String :=
  toString v.major_ver ++ "." ++ pad2 v.minor_ver ++ "." ++ pad2 v.build_num

/-- Numeric value of a digit character. -/
def digit_val (c : Char) : Nat := c.toNat - 48

/-- Numeric value of a two-digit group. -/
def two_digit_val (x y : Char) : Nat := 10 * digit_val x + digit_val y

/-- Test for the character class `[1-9]`. -/
def nonzero_digit (c : Char) : Bool := decide ('1' ≤ c) && decide (c ≤ '9')

/-- Embedding of the part of the version-tag regex that follows the major
group: `_([0-9]{2})` then the optional group `(_([0-9][0-9]))?`. The whole
pattern is applied with `re.match`, which matches a prefix, so characters
after the matched part are ignored; a failing optional build group makes the
group empty (build defaults to 0) rather than failing the match. Returns the
(minor, build) values. -/
def after_major : List Char → Option (Nat × Nat)
  | u :: m1 :: m2 :: rest =>
    if u == '_' && m1.isDigit && m2.isDigit then
      match rest with
      | u2 :: b1 :: b2 :: _ =>
        if u2 == '_' && b1.isDigit && b2.isDigit then
          some (two_digit_val m1 m2, two_digit_val b1 b2)
        else
          some (two_digit_val m1 m2, 0)
      | _ => some (two_digit_val m1 m2, 0)
    else none
  | _ => none

/-- Embedding of the major group `([1-9]?[0-9]{1})` followed by the rest of
the pattern, including the backtracking of the regex engine: the greedy
two-digit reading of the major number is tried first, and on failure of the
remainder the one-digit reading is tried. Returns (major, minor, build). -/
def parse_major : List Char → Option (Nat × Nat × Nat)
  | x :: y :: rest =>
    if nonzero_digit x && y.isDigit then
      match after_major rest with
      | some p => some (two_digit_val x y, p.1, p.2)
      | none =>
        if x.isDigit then
          (after_major (y :: rest)).map (fun p => (digit_val x, p.1, p.2))
        else none
    else if x.isDigit then
      (after_major (y :: rest)).map (fun p => (digit_val x, p.1, p.2))
    else none
  | _ => none

/-- Embedding of the whole regex on the character list of the tag name. -/
def parse_version_tag_chars : List Char → Option (Nat × Nat × Nat × Nat)
  | c1 :: c2 :: c3 :: c4 :: a :: b :: c :: d :: s :: v :: rest =>
    if c1 == '1' && c2 == '0' && c3 == '0' && c4 == '0' &&
        a.isDigit && b.isDigit && c.isDigit && d.isDigit &&
        s == '/' && v == 'V' then
      (parse_major rest).map (fun p =>
        (10000000 + digit_val a * 1000 + digit_val b * 100 + digit_val c * 10 + digit_val d,
         p.1, p.2.1, p.2.2))
    else none
  | _ => none

/-- Embedding of `parse_version_tag`: applies the anchored-prefix regex
`(1000[0-9]{4})/V([1-9]?[0-9]{1})_([0-9]{2})(_([0-9][0-9]))?` via `re.match`
and returns `(sw_article_num, major, minor, build)` with the build defaulting
to 0, or `none` when the regex does not match a prefix of the string. -/
def parse_version_tag (version_tag : String) : Option (Nat × Nat × Nat × Nat) :=
  parse_version_tag_chars version_tag.toList

/-- Whitespace characters removed by Python `str.strip()`. -/
def py_whitespace (c : Char) : Bool :=
  c == ' ' || c == '\t' || c == '\n' || c == '\r' || c == '\x0b' || c == '\x0c'

/-- Embedding of Python `str.strip()`: removes leading and trailing
whitespace. -/
def py_strip (s : String) : String :=
  ⟨((s.toList.dropWhile py_whitespace).reverse.dropWhile py_whitespace).reverse⟩

/-- Embedding of the `VersionTagError` exception: numeric code and message. -/
structure VersionTagError where
  error_code : Nat
  error_msg : String
deriving DecidableEq

/-- Rendering of a possibly-`None` string by Python string formatting. -/
def fmt_opt_str : Option String → String
  | none => "None"
  | some s => s

/-- Rendering of a Python list of strings by `format`, as in the stray-tag
warning message. -/
def py_str_list_repr (l : List String) : String :=
  "[" ++ String.intercalate ", " (l.map (fun s => "\x27" ++ s ++ "\x27")) ++ "]"

/-- Message raised by `check_head_version_already_used`. -/
def already_used_msg (head_version : Version) : String :=
  "The version " ++ head_version.str ++ " has already been used"

/-- Warning appended by `check_head_version_skipped_a_version` when HEAD is
not ahead of the most recent same-kind version. -/
def skip_warning_msg (head_version most_recent_version : Version) : String :=
  "HEAD is tagged with version " ++ head_version.str ++ " but the most recent version is " ++
    most_recent_version.str ++
    ". Was this the intention (you might have checked out an earlier commit)?"

/-- Message raised on a skipped release version, enumerating the three valid
successors. -/
def skipped_release_msg (a b c : Version) : String :=
  "You skipped a release version, the next version should be either " ++ a.str ++ ", " ++
    b.str ++ ", or " ++ c.str ++ "."

/-- Message raised on a skipped test version, enumerating the two valid
successors. -/
def skipped_test_msg (a b : Version) : String :=
  "You skipped a test version, the next version should be either " ++ a.str ++ " or " ++
    b.str ++ "."

/-- Message raised by `check_head_has_multiple_versions`. -/
def multiple_versions_msg (v h0 : Version) : String :=
  "HEAD seems to be tagged with multiple versions. At least the tag " ++
    fmt_opt_str v.tag_name ++ " and " ++ fmt_opt_str h0.tag_name ++ " have different versions."

/-- Message raised by `check_tag_is_lightweight`. -/
def lightweight_msg (v : Version) : String :=
  "You assigned a lightweight tag (" ++ fmt_opt_str v.tag_name ++
    ") to HEAD, you should use annotated tags (git tag -a)"

/-- Warning appended by `check_head_has_version_and_nonversion_tag`. -/
def stray_tags_msg (non_version_tags : List String) : String :=
  "HEAD was tagged with both version and non-version tags. Was this the intent? The non-version tags are: " ++
    py_str_list_repr non_version_tags

/-- Embedding of CPython `list.remove` over a list of `Version`s: removes the
first element that compares equal to the argument under `Version.__eq__`
(the identity shortcut of `PyObject_RichCompareBool` is subsumed because
`__eq__` is reflexive here); `none` models the `ValueError` raised when no
element matches. -/
def list_remove_version : List Version → Version → Option (List Version)
  | [], _ => none
  | y :: ys, x =>
    if y.eq x then some ys else (list_remove_version ys x).map (fun l => y :: l)

/-- Repeated `versions.remove(head_version)` over a list of head versions, as
performed by the loop in `get_head_versions`. -/
def remove_all (l : List Version) : List Version → Option (List Version)
  | [] => some l
  | x :: xs =>
    match list_remove_version l x with
    | some l2 => remove_all l2 xs
    | none => none

/-- Embedding of `get_head_versions`: collects the versions whose commit id
equals HEAD, then removes each of them from the main list with
`list.remove`; yields `(head_versions, remaining_versions)` where the head
part is `none` (Python `None`) when no version sits on HEAD. -/
def get_head_versions (versions : List Version) (head_sha1 : String) :
    Option (Option (List Version) × List Version) :=
  let head_versions := versions.filter (fun v => v.sha1 == some head_sha1)
  if head_versions.length > 0 then
    (remove_all versions head_versions).map (fun remaining => (some head_versions, remaining))
  else
    some (none, versions)

/-- Embedding of `check_head_version_already_used`: raises error code 1 on
the first historical version equal (under `__eq__`) to the head version. -/
def check_head_version_already_used (head_version : Version) (prev_versions : List Version) :
    Except VersionTagError Unit :=
  match prev_versions.find? (fun v => v.eq head_version) with
  | some _ => .error ⟨1, already_used_msg head_version⟩
  | none => .ok ()

/-- Embedding of the most-recent-version search at the top of
`check_head_version_skipped_a_version`: folds over the previous versions,
keeping the largest one whose `is_kind(head_version_kind)` is truthy,
starting from `Version(0, 0, 0)`. -/
def most_recent_of_kind (kind : String) (prev_versions : List Version) : Version :=
  prev_versions.foldl
    (fun mr pv => if truthy (pv.is_kind kind) && pv.gt mr then pv else mr)
    { major_ver := 0, minor_ver := 0, build_num := 0 }

/-- Embedding of `check_head_version_skipped_a_version`. Appends a warning
and passes when the head version is not ahead of the most recent same-kind
version; otherwise raises error code 5 unless the head version is a member
(under `__eq__`) of the valid successor set, which for a release-kind head
is the major/minor/build rolls and for a test-kind head only the minor and
build rolls. -/
def check_head_version_skipped_a_version (head_version : Version)
    (prev_versions : List Version) (warnings : List String) :
    Option (Except VersionTagError (List String)) :=
  let most_recent_version := most_recent_of_kind head_version.kind prev_versions
  if head_version.le most_recent_version then
    some (.ok (warnings ++ [skip_warning_msg head_version most_recent_version]))
  else if head_version.kind = "release" then do
    let a ← most_recent_version.next "roll_major"
    let b ← most_recent_version.next "roll_minor"
    let c ← most_recent_version.next "roll_build"
    if head_version.gt most_recent_version && !([a, b, c].any (fun x => x.eq head_version)) then
      some (.error ⟨5, skipped_release_msg a b c⟩)
    else
      some (.ok warnings)
  else do
    let a ← most_recent_version.next "roll_minor"
    let b ← most_recent_version.next "roll_build"
    if !([a, b].any (fun x => x.eq head_version)) then
      some (.error ⟨5, skipped_test_msg a b⟩)
    else
      some (.ok warnings)

/-- Embedding of `check_tag_is_lightweight`; the collaborator call that asks
git for the object type of a tag ref is the function argument
`objecttype`. -/
def check_tag_is_lightweight (head_versions : List Version)
    (objecttype : Option String → String) : Except VersionTagError Unit :=
  match head_versions.find? (fun hv => py_strip (objecttype hv.tag_name) == "commit") with
  | some hv => .error ⟨4, lightweight_msg hv⟩
  | none => .ok ()

/-- Embedding of `check_head_has_multiple_versions`: raises error code 3 on
the first head version that differs (under `__ne__`) from the first one. -/
def check_head_has_multiple_versions : List Version → Except VersionTagError Unit
  | [] => .ok ()
  | h0 :: rest =>
    match (h0 :: rest).find? (fun v => v.ne h0) with
    | some v => .error ⟨3, multiple_versions_msg v h0⟩
    | none => .ok ()

/-- Embedding of `check_head_has_local_changes`: the two diff strings are
checked independently, working tree first. -/
def check_head_has_local_changes (workingtree_has_changes index_has_changes : String) :
    Except VersionTagError Unit :=
  if workingtree_has_changes ≠ "" then
    .error ⟨2, "HEAD is tagged but has local changes. This is not allowed."⟩
  else if index_has_changes ≠ "" then
    .error ⟨2, "HEAD is tagged but has staged changes. This is not allowed."⟩
  else
    .ok ()

/-- Embedding of `check_head_has_version_and_nonversion_tag`; the collaborator
call listing the tags pointing at HEAD is the `head_tags` argument. Appends
one warning when any of those tags is not version-shaped. -/
def check_head_has_version_and_nonversion_tag (head_tags : List String)
    (warnings : List String) : List String :=
  let non_version_tags := head_tags.filter (fun t => (parse_version_tag t).isNone)
  if non_version_tags.length > 0 then
    warnings ++ [stray_tags_msg non_version_tags]
  else
    warnings

/-- Embedding of `check_head`: the linear pipeline of the six checks, run
only when HEAD carries a version tag. The `Except` error value carries the
warnings accumulated before the abort, mirroring the global warning list of
the source; the outer `Option` is `none` exactly when the Python code would
crash on `head_versions[0]` applied to an empty list. -/
def check_head (versions : List Version) (head_versions : Option (List Version))
    (workingtree_has_changes index_has_changes : String)
    (objecttype : Option String → String) (head_tags : List String)
    (warnings : List String) :
    Option (Except (VersionTagError × List String) (List String)) :=
  match head_versions with
  | none => some (.ok warnings)
  | some [] => none
  | some (h0 :: hvrest) =>
    match check_head_version_already_used h0 versions with
    | .error e => some (.error (e, warnings))
    | .ok () =>
      match check_head_version_skipped_a_version h0 versions warnings with
      | none => none
      | some (.error e) => some (.error (e, warnings))
      | some (.ok warnings1) =>
        match check_tag_is_lightweight (h0 :: hvrest) objecttype with
        | .error e => some (.error (e, warnings1))
        | .ok () =>
          match check_head_has_multiple_versions (h0 :: hvrest) with
          | .error e => some (.error (e, warnings1))
          | .ok () =>
            match check_head_has_local_changes workingtree_has_changes index_has_changes with
            | .error e => some (.error (e, warnings1))
            | .ok () =>
              some (.ok (check_head_has_version_and_nonversion_tag head_tags warnings1))

/-- Embedding of the text assembled by `write_version_file` (the file-system
write itself is the collaborator boundary): the five-line banner, the two
guard lines, the three `#define`s and the closing `#endif`. Crashes (`none`)
only on an empty present head list, where the source would index
`head_versions[0]`. -/
def version_file_content (head_versions : Option (List Version)) (head_sha1 : String)
    (workingtree_has_changes index_has_changes : String) : Option String :=
  let has_local_changes := workingtree_has_changes != "" || index_has_changes != ""
  let nums : Option (Nat × Nat) :=
    match head_versions with
    | none => some (90, 0)
    | some [] => none
    | some (h0 :: _) => some (h0.major_ver, h0.minor_ver)
  nums.map (fun mm =>
    "//--------------------------------------------------------------------------------------------------\n" ++
    "// Notes:\n" ++
    "// This file is autogenerated by the Python script \"version_from_tag.py\" invoked during building.\n" ++
    "// Do not edit this file as changes will be overwritten during building.\n" ++
    "//--------------------------------------------------------------------------------------------------\n" ++
    "#ifndef _SWPACKAGEVERSION_H_\n" ++
    "#define _SWPACKAGEVERSION_H_\n" ++
    "#define SW_VER_MAJOR " ++ toString mm.1 ++ "\n" ++
    "#define SW_VER_MINOR " ++ toString mm.2 ++ "\n" ++
    "#define SW_REVISIONHASH \"" ++
      (if has_local_changes then "+" ++ head_sha1 else head_sha1.take 12) ++ "\"\n" ++
    "#endif")

/-- Result triple returned by `run`. -/
structure RunResult where
  error_code : Nat
  error_msg : Option String
  warning_msgs : List String
deriving DecidableEq

/-- Embedding of `run`, parametrized over the data the source fetches from
git before the checks: the parsed version list, the HEAD commit id, the two
raw diff outputs (stripped here exactly where `get_head_has_local_changes`
strips them) and the two remaining collaborator queries. The warning list is
reset to empty, the head versions are split off, the check pipeline runs,
and a `VersionTagError` is caught into the result triple. -/
def run (versions : List Version) (head_sha1 : String)
    (workingtree_diff index_diff : String)
    (objecttype : Option String → String) (head_tags : List String) :
    Option RunResult := do
  let (head_versions, remaining) ← get_head_versions versions head_sha1
  let workingtree_changes := py_strip workingtree_diff
  let index_changes := py_strip index_diff
  match ← check_head remaining head_versions workingtree_changes index_changes objecttype
      head_tags [] with
  | .ok warnings =>
    let _ ← version_file_content head_versions head_sha1 workingtree_changes index_changes
    some ⟨0, none, warnings⟩
  | .error (e, warnings) =>
    some ⟨e.error_code, some e.error_msg, warnings⟩

/-- Specification-side formalization, following the words of the spec, of the
tail of the recognized tag shape after the major group when it is required
to close the string: `_<minor 2 digits>` optionally followed by
`_<build 2 digits>`, with nothing after it. -/
def spec_tail_shape : List Char → Bool
  | u :: m1 :: m2 :: rest =>
    u == '_' && m1.isDigit && m2.isDigit &&
      (rest.isEmpty ||
        (match rest with
         | u2 :: b1 :: b2 :: rest2 =>
           u2 == '_' && b1.isDigit && b2.isDigit && rest2.isEmpty
         | _ => false))
  | _ => false

/-- Specification-side formalization of `<major 1-2 digits>` followed by the
closed tail: either a two-digit major with nonzero leading digit or a
one-digit major. -/
def spec_major_shape : List Char → Bool
  | x :: y :: rest =>
    (nonzero_digit x && y.isDigit && spec_tail_shape rest) ||
      (x.isDigit && spec_tail_shape (y :: rest))
  | _ => false

/-- Specification-side formalization of the full recognized shape
`<8-digit product code starting with 1000>/V<major 1-2 digits>_<minor 2
digits>[_<build 2 digits>]`, covering the whole string. -/
def spec_version_shape (t : String) : Bool :=
  match t.toList with
  | c1 :: c2 :: c3 :: c4 :: a :: b :: c :: d :: s :: v :: rest =>
    c1 == '1' && c2 == '0' && c3 == '0' && c4 == '0' &&
      a.isDigit && b.isDigit && c.isDigit && d.isDigit &&
      s == '/' && v == 'V' && spec_major_shape rest
  | _ => false

/-- Variant of `spec_tail_shape` demanding only that the string starts with
the mandatory `_<minor 2 digits>` part; since the build group is optional, a
string starts with the recognized shape exactly when the mandatory part is
present. -/
def spec_tail_shape_start : List Char → Bool
  | u :: m1 :: m2 :: _ => u == '_' && m1.isDigit && m2.isDigit
  | _ => false

/-- Variant of `spec_major_shape` for a string that starts with (rather than
equals) the recognized shape. -/
def spec_major_shape_start : List Char → Bool
  | x :: y :: rest =>
    (nonzero_digit x && y.isDigit && spec_tail_shape_start rest) ||
      (x.isDigit && spec_tail_shape_start (y :: rest))
  | _ => false

/-- Specification-side predicate on character lists: some prefix is of the
full recognized shape. -/
def spec_version_shape_start_chars : List Char → Bool
  | c1 :: c2 :: c3 :: c4 :: a :: b :: c :: d :: s :: v :: rest =>
    c1 == '1' && c2 == '0' && c3 == '0' && c4 == '0' &&
      a.isDigit && b.isDigit && c.isDigit && d.isDigit &&
      s == '/' && v == 'V' && spec_major_shape_start rest
  | _ => false

/-- Specification-side predicate: some prefix of the string is of the full
recognized shape. -/
def spec_version_shape_start (t : String) : Bool :=
  spec_version_shape_start_chars t.toList

/-- Specification-side successor order key: the order key rounded up to the
next multiple of 10000 for a major roll, to the next multiple of 100 for a
minor roll, and incremented by one for a build roll. -/
def spec_next_key (roll : String) (key : Nat) : Nat :=
  if roll = "roll_major" then 10000 * (key / 10000 + 1)
  else if roll = "roll_minor" then 100 * (key / 100 + 1)
  else key + 1

/-- Decomposition of a flat order key into a `Version` with the provenance
fields carried over from `v` the way `Version.next` carries them. -/
def decompose (key : Nat) (v : Version) : Version :=
  { major_ver := key / 10000
    minor_ver := key % 10000 / 100
    build_num := key % 100
    creatordate := v.creatordate
    sw_article_num := v.sw_article_num
    sha1 := v.sha1
    tag_name := none }

/-- Specification-side generated-header text: the fixed five-line banner, the
two guard lines, the two integer defines, the string define and the closing
line, joined by newlines. -/
def spec_header_text (major minor : Nat) (hash : String) : String :=
  String.intercalate "\n"
    ["//--------------------------------------------------------------------------------------------------",
     "// Notes:",
     "// This file is autogenerated by the Python script \"version_from_tag.py\" invoked during building.",
     "// Do not edit this file as changes will be overwritten during building.",
     "//--------------------------------------------------------------------------------------------------",
     "#ifndef _SWPACKAGEVERSION_H_",
     "#define _SWPACKAGEVERSION_H_",
     "#define SW_VER_MAJOR " ++ toString major,
     "#define SW_VER_MINOR " ++ toString minor,
     "#define SW_REVISIONHASH \"" ++ hash ++ "\"",
     "#endif"]

/-- Concrete release version 1.00.00 carrying provenance, as parsed from an
annotated tag on an old commit. -/
def smpl_v100_old : Version :=
  { major_ver := 1, minor_ver := 0, build_num := 0, creatordate := some "1600000000",
    sw_article_num := some 10006000, sha1 := some "aaa111", tag_name := some "10006000/V1_00_00" }

/-- Concrete release version with the same numbers as `smpl_v100_old` but a
different tag name and a different commit id. -/
def smpl_v100_head : Version :=
  { major_ver := 1, minor_ver := 0, build_num := 0, creatordate := some "1600000100",
    sw_article_num := some 10006001, sha1 := some "beef22", tag_name := some "10006001/V1_00_00" }

/-- Concrete release version 1.01.00. -/
def smpl_v110 : Version :=
  { major_ver := 1, minor_ver := 1, build_num := 0, creatordate := some "1600000200",
    sw_article_num := some 10006000, sha1 := some "ccc333", tag_name := some "10006000/V1_01_00" }

/-- Concrete release version 1.02.00 sitting on commit `beef22`. -/
def smpl_v120 : Version :=
  { major_ver := 1, minor_ver := 2, build_num := 0, creatordate := some "1600000300",
    sw_article_num := some 10006000, sha1 := some "beef22", tag_name := some "10006000/V1_02_00" }

/-- Concrete release version 1.03.00 sitting on commit `beef22`. -/
def smpl_v130 : Version :=
  { major_ver := 1, minor_ver := 3, build_num := 0, creatordate := some "1600000400",
    sw_article_num := some 10006000, sha1 := some "beef22", tag_name := some "10006000/V1_03_00" }

/-- Concrete version 1.99.99 without provenance. -/
def smpl_v19999 : Version := { major_ver := 1, minor_ver := 99, build_num := 99 }

/-- Concrete version 90.00.00: order key exactly at the kind threshold. -/
def smpl_v900000 : Version := { major_ver := 90, minor_ver := 0, build_num := 0 }

/-- Concrete test version 90.00.01. -/
def smpl_v900001 : Version := { major_ver := 90, minor_ver := 0, build_num := 1 }

/-- Collaborator answer describing every tag ref as an annotated tag. -/
def annotated_objecttype : Option String → String := fun _ => "tag"

/-- Collaborator answer describing every tag ref as a lightweight tag. -/
def lightweight_objecttype : Option String → String := fun _ => "commit"

/-- Successor of 1.01.00 by a major roll, provenance carried over. -/
def smpl_v110_next_major : Version :=
  { major_ver := 2, minor_ver := 0, build_num := 0, creatordate := some "1600000200",
    sw_article_num := some 10006000, sha1 := some "ccc333", tag_name := none }

/-- Successor of 1.01.00 by a minor roll, provenance carried over. -/
def smpl_v110_next_minor : Version :=
  { major_ver := 1, minor_ver := 2, build_num := 0, creatordate := some "1600000200",
    sw_article_num := some 10006000, sha1 := some "ccc333", tag_name := none }

/-- Successor of 1.01.00 by a build roll, provenance carried over. -/
def smpl_v110_next_build : Version :=
  { major_ver := 1, minor_ver := 1, build_num := 1, creatordate := some "1600000200",
    sw_article_num := some 10006000, sha1 := some "ccc333", tag_name := none }

/-- Evaluation of `Version.next` at the major roll. -/
theorem next_roll_major (v : Version) :
    v.next "roll_major" = some (decompose (v.version + 10000 - v.version % 10000) v) := rfl

/-- Evaluation of `Version.next` at the minor roll. -/
theorem next_roll_minor (v : Version) :
    v.next "roll_minor" = some (decompose (v.version + 100 - v.version % 100) v) := rfl

/-- Evaluation of `Version.next` at the build roll. -/
theorem next_roll_build (v : Version) :
    v.next "roll_build" = some (decompose (v.version + 1) v) := rfl

/-- Recomposing the fields of a decomposed order key gives the key back. -/
theorem decompose_version (key : Nat) (v : Version) : (decompose key v).version = key := by
  show key / 10000 * 10000 + key % 10000 / 100 * 100 + key % 100 = key
  omega


/-- Claim C2: for every head version and historical list, the duplicate check
raises the fatal error with code 1 if and only if some historical version has
the same order key as the head version; equality is decided by order key
alone, so provenance (in particular the tag name) plays no role. -/
theorem c2_duplicate_check_by_order_key (head : Version) (prevs : List Version) :
    check_head_version_already_used head prevs =
      if ∃ v ∈ prevs, v.version = head.version then
        Except.error ⟨1, already_used_msg head⟩
      else
        Except.ok () := by
  unfold check_head_version_already_used
  cases h : prevs.find? (fun v => v.eq head) with
  | none =>
    rw [if_neg]
    rintro ⟨v, hv, he⟩
    have hne := List.find?_eq_none.mp h v hv
    simp only [Version.eq, beq_iff_eq] at hne
    exact hne he
  | some x =>
    rw [if_pos]
    exact ⟨x, List.mem_of_find?_eq_some h, by
      simpa [Version.eq] using List.find?_some h⟩

/-- Claim C4 (with the `__ge__` divergence): the operators `==`, `<`, `>`,
`<=`, `!=` depend only on the order keys of their operands, the strict order
is trichotomous and transitive, but `>=` does not compare at all: it raises
`AttributeError` because the source reads the misspelled attribute
`verison`. -/
theorem c4_comparisons_use_order_key (a b c a2 b2 : Version)
    (ha : a.version = a2.version) (hb : b.version = b2.version) :
    (a.eq b = a2.eq b2 ∧ a.lt b = a2.lt b2 ∧ a.gt b = a2.gt b2 ∧
      a.le b = a2.le b2 ∧ a.ne b = a2.ne b2) ∧
    (a.lt b || a.eq b || a.gt b) = true ∧
    (a.lt b = true → a.eq b = false ∧ a.gt b = false) ∧
    (a.eq b = true → a.lt b = false ∧ a.gt b = false) ∧
    (a.gt b = true → a.lt b = false ∧ a.eq b = false) ∧
    (a.lt b = true → b.lt c = true → a.lt c = true) ∧
    a.ge b = Except.error "AttributeError: \x27Version\x27 object has no attribute \x27verison\x27" := by
  refine ⟨⟨by unfold Version.eq; rw [ha, hb], by unfold Version.lt; rw [ha, hb],
      by unfold Version.gt; rw [ha, hb], by unfold Version.le; rw [ha, hb],
      by unfold Version.ne; rw [ha, hb]⟩, ?_, ?_, ?_, ?_, ?_, rfl⟩
  · simp only [Version.lt, Version.eq, Version.gt, Bool.or_eq_true, decide_eq_true_eq,
      beq_iff_eq]
    omega
  · intro h
    simp only [Version.lt, decide_eq_true_eq] at h
    constructor
    · unfold Version.eq
      simp only [beq_eq_false_iff_ne]
      omega
    · unfold Version.gt
      simp only [decide_eq_false_iff_not]
      omega
  · intro h
    simp only [Version.eq, beq_iff_eq] at h
    constructor
    · unfold Version.lt
      simp only [decide_eq_false_iff_not]
      omega
    · unfold Version.gt
      simp only [decide_eq_false_iff_not]
      omega
  · intro h
    simp only [Version.gt, decide_eq_true_eq] at h
    constructor
    · unfold Version.lt
      simp only [decide_eq_false_iff_not]
      omega
    · unfold Version.eq
      simp only [beq_eq_false_iff_ne]
      omega
  · intro h1 h2
    simp only [Version.lt, decide_eq_true_eq] at h1 h2 ⊢
    omega

/-- Witness for C4 at versions 1.00.00 (two copies with different tag names)
and 1.01.00. -/
theorem c4_witness :
    smpl_v100_old.version = smpl_v100_head.version ∧
    smpl_v110.version = smpl_v110.version ∧
    smpl_v100_old.eq smpl_v110 = smpl_v100_head.eq smpl_v110 ∧
    smpl_v100_old.ge smpl_v110 =
      Except.error "AttributeError: \x27Version\x27 object has no attribute \x27verison\x27" := by
  have h := c4_comparisons_use_order_key smpl_v100_old smpl_v110 smpl_v120 smpl_v100_head
    smpl_v110 (by decide) (by decide)
  exact ⟨by decide, rfl, h.1.1, h.2.2.2.2.2.2⟩

/-- Claim C5: for every version with in-range minor and build fields and every
roll kind, `next` produces exactly the version whose order key is the current
key rounded up to the next multiple of 10000 (major roll), the next multiple
of 100 (minor roll) or incremented by one (build roll), decomposed back into
major/minor/build through the flat integer so carries propagate. -/
theorem c5_next_rolls_order_key (v : Version)
    (hmi : v.minor_ver ≤ 99) (hbu : v.build_num ≤ 99) (roll : String)
    (hroll : roll = "roll_major" ∨ roll = "roll_minor" ∨ roll = "roll_build") :
    v.next roll = some (decompose (spec_next_key roll v.version) v) ∧
    (decompose (spec_next_key roll v.version) v).version = spec_next_key roll v.version := by
  refine ⟨?_, decompose_version _ _⟩
  rcases hroll with h | h | h <;> subst h
  · have hk : v.version + 10000 - v.version % 10000 = spec_next_key "roll_major" v.version := by
      unfold spec_next_key
      rw [if_pos rfl]
      omega
    rw [next_roll_major, hk]
  · have hk : v.version + 100 - v.version % 100 = spec_next_key "roll_minor" v.version := by
      unfold spec_next_key
      rw [if_neg (by decide), if_pos rfl]
      omega
    rw [next_roll_minor, hk]
  · have hk : v.version + 1 = spec_next_key "roll_build" v.version := by
      unfold spec_next_key
      rw [if_neg (by decide), if_neg (by decide)]
    rw [next_roll_build, hk]

/-- Witness for C5: rolling the build of 1.99.99 carries into the major
number, giving 2.00.00 with order key 20000. -/
theorem c5_witness :
    smpl_v19999.minor_ver ≤ 99 ∧ smpl_v19999.build_num ≤ 99 ∧
    smpl_v19999.next "roll_build" = some { major_ver := 2, minor_ver := 0, build_num := 0 } ∧
    ({ major_ver := 2, minor_ver := 0, build_num := 0 } : Version).version = 20000 := by
  have h := c5_next_rolls_order_key smpl_v19999 (by decide) (by decide) "roll_build"
    (Or.inr (Or.inr rfl))
  exact ⟨by decide, by decide, h.1.trans (by decide), by decide⟩

/-- Claim C10: a version whose order key is exactly 900000 has kind `test`,
yet both `is_kind "test"` and `is_kind "release"` are false of it (the kind
property tests `< 900000` against an else branch while `is_kind` uses the
strict comparisons `<` and `>`), so the most-recent-version search of the
skip check, which filters with `is_kind`, ignores such a historical version
even when the head version is of test kind. -/
theorem c10_boundary_version_excluded (v : Version) (hv : v.version = 900000) :
    v.kind = "test" ∧ v.is_kind "test" = some false ∧ v.is_kind "release" = some false ∧
    ∀ head : Version, head.kind = "test" →
      ∀ l1 l2 : List Version,
        most_recent_of_kind head.kind (l1 ++ v :: l2) =
          most_recent_of_kind head.kind (l1 ++ l2) := by
  have hstep : ∀ mr : Version,
      (if truthy (v.is_kind "test") && v.gt mr then v else mr) = mr := by
    intro mr
    rw [if_neg]
    simp [Version.is_kind, Version.first_test_version, truthy, hv]
  refine ⟨?_, ?_, ?_, ?_⟩
  · unfold Version.kind
    rw [hv, if_neg (by unfold Version.first_test_version; omega)]
  · unfold Version.is_kind
    rw [if_neg (by decide), if_pos rfl, hv]
    rfl
  · unfold Version.is_kind
    rw [if_pos rfl, hv]
    rfl
  · intro head hk l1 l2
    rw [hk]
    unfold most_recent_of_kind
    rw [List.foldl_append, List.foldl_append, List.foldl_cons, hstep]

/-- Witness for C10 at 90.00.00 with a test-kind head 90.00.01. -/
theorem c10_witness :
    smpl_v900000.version = 900000 ∧
    smpl_v900000.kind = "test" ∧
    smpl_v900000.is_kind "test" = some false ∧
    smpl_v900000.is_kind "release" = some false ∧
    smpl_v900001.kind = "test" ∧
    most_recent_of_kind smpl_v900001.kind [smpl_v900000] =
      most_recent_of_kind smpl_v900001.kind [] := by
  have h := c10_boundary_version_excluded smpl_v900000 (by decide)
  exact ⟨by decide, h.1, h.2.1, h.2.2.1, by decide, h.2.2.2 smpl_v900001 (by decide) [] []⟩

/-- Claim C1: when the head version is strictly ahead of the most recent
historical version of its kind, the skip check passes exactly when the head
version equals (by order key) one of the valid successors of that most
recent version — major, minor and build rolls for a release-kind head, only
minor and build rolls for a test-kind head — and otherwise raises the fatal
error with code 5 whose message enumerates the valid successors. -/
theorem c1_skip_check_successor_set (head : Version) (prevs : List Version)
    (w : List String)
    (hgt : (most_recent_of_kind head.kind prevs).version < head.version) :
    (head.kind = "release" →
      ∀ a b c : Version,
        (most_recent_of_kind head.kind prevs).next "roll_major" = some a →
        (most_recent_of_kind head.kind prevs).next "roll_minor" = some b →
        (most_recent_of_kind head.kind prevs).next "roll_build" = some c →
        check_head_version_skipped_a_version head prevs w =
          some (if a.eq head || (b.eq head || c.eq head) then Except.ok w
                else Except.error ⟨5, skipped_release_msg a b c⟩)) ∧
    (head.kind = "test" →
      ∀ a b : Version,
        (most_recent_of_kind head.kind prevs).next "roll_minor" = some a →
        (most_recent_of_kind head.kind prevs).next "roll_build" = some b →
        check_head_version_skipped_a_version head prevs w =
          some (if a.eq head || b.eq head then Except.ok w
                else Except.error ⟨5, skipped_test_msg a b⟩)) := by
  have hle : head.le (most_recent_of_kind head.kind prevs) = false := by
    simp only [Version.le, decide_eq_false_iff_not]
    omega
  have hgt2 : head.gt (most_recent_of_kind head.kind prevs) = true := by
    simp only [Version.gt, decide_eq_true_eq]
    omega
  constructor
  · intro hk a b c ha hb hc
    rw [hk] at ha hb hc hle hgt2
    simp only [check_head_version_skipped_a_version, hk]
    simp [hle, ha, hb, hc, hgt2]
    split_ifs <;> simp_all
  · intro hk a b ha hb
    rw [hk] at ha hb hle
    simp only [check_head_version_skipped_a_version, hk]
    simp [hle, ha, hb]
    split_ifs <;> simp_all

/-- Witness for C1: with most recent release 1.01.00 a head tagged 1.03.00
fails with code 5 enumerating 2.00.00, 1.02.00 and 1.01.01. -/
theorem c1_witness :
    (most_recent_of_kind smpl_v130.kind [smpl_v110]).version < smpl_v130.version ∧
    smpl_v130.kind = "release" ∧
    check_head_version_skipped_a_version smpl_v130 [smpl_v110] [] =
      some (Except.error ⟨5,
        "You skipped a release version, the next version should be either 2.00.00, 1.02.00, or 1.01.01."⟩) := by
  have h := c1_skip_check_successor_set smpl_v130 [smpl_v110] [] (by decide)
  have h2 := h.1 (by decide) smpl_v110_next_major smpl_v110_next_minor smpl_v110_next_build
    (by decide) (by decide) (by decide)
  exact ⟨by decide, by decide, h2.trans (by decide)⟩

/-- Claim C8: when the head version is not ahead of the most recent
historical version of its kind, the skip check never raises: it appends
exactly one warning naming both versions and returns; consequently a run in
which every other check passes finishes with error code 0 and exactly that
one warning. -/
theorem c8_earlier_checkout_tolerated (head : Version) (prevs : List Version)
    (w : List String)
    (hle : head.version ≤ (most_recent_of_kind head.kind prevs).version) :
    check_head_version_skipped_a_version head prevs w =
      some (Except.ok (w ++ [skip_warning_msg head (most_recent_of_kind head.kind prevs)])) ∧
    ∀ (versions : List Version) (sha : String) (ot : Option String → String)
        (tags : List String),
      get_head_versions versions sha = some (some [head], prevs) →
      (∀ v ∈ prevs, v.eq head = false) →
      py_strip (ot head.tag_name) ≠ "commit" →
      (∀ t ∈ tags, (parse_version_tag t).isNone = false) →
      run versions sha "" "" ot tags =
        some ⟨0, none, [skip_warning_msg head (most_recent_of_kind head.kind prevs)]⟩ := by
  have hle2 : head.le (most_recent_of_kind head.kind prevs) = true := by
    simp only [Version.le, decide_eq_true_eq]
    omega
  have hskip : ∀ w0 : List String,
      check_head_version_skipped_a_version head prevs w0 =
        some (Except.ok (w0 ++ [skip_warning_msg head (most_recent_of_kind head.kind prevs)])) := by
    intro w0
    simp only [check_head_version_skipped_a_version, hle2, if_true]
  refine ⟨hskip w, ?_⟩
  intro versions sha ot tags hget hnodup hot htags
  have hused : check_head_version_already_used head prevs = .ok () := by
    unfold check_head_version_already_used
    have hfind : prevs.find? (fun v => v.eq head) = none := by
      rw [List.find?_eq_none]
      intro v hv
      simp [hnodup v hv]
    rw [hfind]
  have hlight : check_tag_is_lightweight [head] ot = .ok () := by
    unfold check_tag_is_lightweight
    have hfind : ([head].find? fun hv => py_strip (ot hv.tag_name) == "commit") = none := by
      simp [List.find?_cons, beq_eq_false_iff_ne.mpr hot]
    rw [hfind]
  have hmult : check_head_has_multiple_versions [head] = .ok () := by
    have hfind : ([head].find? fun v => v.ne head) = none := by
      simp [List.find?_cons, Version.ne]
    simp only [check_head_has_multiple_versions, hfind]
  have hlocal : check_head_has_local_changes "" "" = .ok () := by
    unfold check_head_has_local_changes
    rw [if_neg (by simp), if_neg (by simp)]
  have hstray : ∀ w1 : List String, check_head_has_version_and_nonversion_tag tags w1 = w1 := by
    intro w1
    unfold check_head_has_version_and_nonversion_tag
    have hfil : tags.filter (fun t => (parse_version_tag t).isNone) = [] := by
      rw [List.filter_eq_nil_iff]
      intro t ht
      simp [htags t ht]
    rw [hfil]
    simp
  have hchk : check_head prevs (some [head]) "" "" ot tags [] =
      some (.ok [skip_warning_msg head (most_recent_of_kind head.kind prevs)]) := by
    simp only [check_head, hused, hskip, hlight, hmult, hlocal, hstray, List.nil_append]
  have hfile : ∀ s1 : String, (version_file_content (some [head]) s1 "" "").isSome = true := by
    intro s1
    simp [version_file_content]
  have hps : py_strip "" = "" := rfl
  simp only [run, hget, hps]
  simp [hchk]
  have hvf : ∃ txt, version_file_content (some [head]) sha "" "" = some txt := by
    rcases h : version_file_content (some [head]) sha "" "" with _ | txt
    · have h2 := hfile sha
      rw [h] at h2
      simp at h2
    · exact ⟨txt, rfl⟩
  obtain ⟨txt, hvf⟩ := hvf
  rw [hvf, Option.some_bind]

/-- Witness for C8: head 1.00.00 on HEAD with historical 1.01.00 succeeds
with code 0 and exactly the one earlier-checkout warning. -/
theorem c8_witness :
    smpl_v100_head.version ≤ (most_recent_of_kind smpl_v100_head.kind [smpl_v110]).version ∧
    run [smpl_v110, smpl_v100_head] "beef22" "" "" annotated_objecttype [] =
      some ⟨0, none,
        [skip_warning_msg smpl_v100_head (most_recent_of_kind smpl_v100_head.kind [smpl_v110])]⟩ := by
  have h := c8_earlier_checkout_tolerated smpl_v100_head [smpl_v110] [] (by decide)
  refine ⟨by decide, h.2 [smpl_v110, smpl_v100_head] "beef22" annotated_objecttype []
    (by decide) (by decide) (by decide) ?_⟩
  intro t ht
  simp at ht

/-- Whenever the minor/build tail parses, the string starts with the
mandatory tail shape. -/
theorem after_major_some_shape :
    ∀ (l : List Char) (p : Nat × Nat), after_major l = some p →
      spec_tail_shape_start l = true
  | [], p, h => by simp [after_major] at h
  | [x], p, h => by simp [after_major] at h
  | [x, y], p, h => by simp [after_major] at h
  | u :: m1 :: m2 :: rest, p, h => by
    simp only [after_major] at h
    by_cases hc : (u == '_' && m1.isDigit && m2.isDigit) = true
    · simp only [spec_tail_shape_start]
      exact hc
    · rw [if_neg hc] at h
      simp at h

/-- Whenever the major group and the tail parse, the string starts with the
major-and-tail shape. -/
theorem parse_major_some_shape :
    ∀ (l : List Char) (p : Nat × Nat × Nat), parse_major l = some p →
      spec_major_shape_start l = true
  | [], p, h => by simp [parse_major] at h
  | [x], p, h => by simp [parse_major] at h
  | x :: y :: rest, p, h => by
    simp only [parse_major] at h
    by_cases h1 : (nonzero_digit x && y.isDigit) = true
    · rw [if_pos h1] at h
      cases ham : after_major rest with
      | some q =>
        have hts := after_major_some_shape rest q ham
        simp [spec_major_shape_start, h1, hts]
      | none =>
        rw [ham] at h
        by_cases h2 : x.isDigit = true
        · rw [if_pos h2] at h
          cases ham2 : after_major (y :: rest) with
          | some q2 =>
            have hts := after_major_some_shape (y :: rest) q2 ham2
            simp [spec_major_shape_start, h2, hts]
          | none =>
            rw [ham2] at h
            simp at h
        · rw [if_neg h2] at h
          simp at h
    · rw [if_neg h1] at h
      by_cases h2 : x.isDigit = true
      · rw [if_pos h2] at h
        cases ham2 : after_major (y :: rest) with
        | some q2 =>
          have hts := after_major_some_shape (y :: rest) q2 ham2
          simp [spec_major_shape_start, h2, hts]
        | none =>
          rw [ham2] at h
          simp at h
      · rw [if_neg h2] at h
        simp at h

/-- Whenever the full parser accepts a character list, that list starts with
the recognized shape. -/
theorem parse_chars_some_shape :
    ∀ (cs : List Char) (r : Nat × Nat × Nat × Nat), parse_version_tag_chars cs = some r →
      spec_version_shape_start_chars cs = true
  | [], r, h => by simp [parse_version_tag_chars] at h
  | [c1], r, h => by simp [parse_version_tag_chars] at h
  | [c1, c2], r, h => by simp [parse_version_tag_chars] at h
  | [c1, c2, c3], r, h => by simp [parse_version_tag_chars] at h
  | [c1, c2, c3, c4], r, h => by simp [parse_version_tag_chars] at h
  | [c1, c2, c3, c4, a], r, h => by simp [parse_version_tag_chars] at h
  | [c1, c2, c3, c4, a, b], r, h => by simp [parse_version_tag_chars] at h
  | [c1, c2, c3, c4, a, b, c], r, h => by simp [parse_version_tag_chars] at h
  | [c1, c2, c3, c4, a, b, c, d], r, h => by simp [parse_version_tag_chars] at h
  | [c1, c2, c3, c4, a, b, c, d, s], r, h => by simp [parse_version_tag_chars] at h
  | c1 :: c2 :: c3 :: c4 :: a :: b :: c :: d :: s :: v :: rest, r, h => by
    simp only [parse_version_tag_chars] at h
    by_cases hc : (c1 == '1' && c2 == '0' && c3 == '0' && c4 == '0' &&
        a.isDigit && b.isDigit && c.isDigit && d.isDigit &&
        s == '/' && v == 'V') = true
    · rw [if_pos hc] at h
      cases hpm : parse_major rest with
      | some p =>
        have hms := parse_major_some_shape rest p hpm
        simp only [spec_version_shape_start_chars]
        simp only [Bool.and_eq_true] at hc ⊢
        exact ⟨hc, hms⟩
      | none =>
        rw [hpm] at h
        simp at h
    · rw [if_neg hc] at h
      simp at h

/-- Counterexample to claim C6 as stated: the string "10006000/V1_00x" is not
of the recognized shape (a stray character trails it), yet `parse_version_tag`
— which applies the regex with prefix semantics via `re.match` — accepts it
and returns (10006000, 1, 0, 0) instead of "not a version". -/
theorem c6_counterexample :
    parse_version_tag "10006000/V1_00x" = some (10006000, 1, 0, 0) ∧
    spec_version_shape "10006000/V1_00x" = false := by decide

/-- Claim C6 (amended): parsing is total and pure, the two sample tags parse
as claimed with the absent build defaulting to 0, and every string that does
not START with the recognized shape — rather than every string that is not of
the shape, since `re.match` matches a prefix and ignores trailing
characters — yields "not a version". -/
theorem c6_parse_totality_amended :
    parse_version_tag "10006000/V1_23_45" = some (10006000, 1, 23, 45) ∧
    parse_version_tag "10006000/V1_00" = some (10006000, 1, 0, 0) ∧
    ∀ t : String, spec_version_shape_start t = false → parse_version_tag t = none := by
  refine ⟨by decide, by decide, ?_⟩
  intro t hshape
  cases h : parse_version_tag t with
  | none => rfl
  | some r =>
    have hs := parse_chars_some_shape t.toList r h
    unfold spec_version_shape_start at hshape
    rw [hshape] at hs
    simp at hs

/-- Witness for the amended C6 at the shapeless string "SomeTag". -/
theorem c6_witness :
    spec_version_shape_start "SomeTag" = false ∧ parse_version_tag "SomeTag" = none :=
  ⟨by decide, c6_parse_totality_amended.2.2 "SomeTag" (by decide)⟩

/-- Removing an element that the head of the list does not equal keeps the
head in place. -/
theorem list_remove_version_cons_ne (a x : Version) (l : List Version)
    (hax : a.eq x = false) :
    list_remove_version (a :: l) x = (list_remove_version l x).map (a :: ·) := by
  simp [list_remove_version, hax]

/-- A sequence of removals of elements none of which equals `a` leaves a
leading `a` untouched. -/
theorem remove_all_cons_ne :
    ∀ (xs : List Version) (l : List Version) (a : Version),
      (∀ x ∈ xs, a.eq x = false) →
      remove_all (a :: l) xs = (remove_all l xs).map (a :: ·)
  | [], l, a, _ => by simp [remove_all]
  | x :: xs, l, a, h => by
    have hax : a.eq x = false := h x (List.mem_cons_self x xs)
    simp only [remove_all, list_remove_version_cons_ne a x l hax]
    cases hr : list_remove_version l x with
    | none => simp
    | some l2 =>
      simp only [Option.map_some]
      exact remove_all_cons_ne xs l2 a (fun y hy => h y (List.mem_cons_of_mem _ hy))

/-- When no element outside the filtered sublist shares an order key with an
element inside it, removing the filtered elements one by one leaves exactly
the complement, in order. -/
theorem remove_all_filter (p : Version → Bool) :
    ∀ l : List Version,
      (∀ v ∈ l, p v = false → ∀ u ∈ l, p u = true → v.version ≠ u.version) →
      remove_all l (l.filter p) = some (l.filter fun v => !(p v))
  | [], _ => by simp [remove_all]
  | a :: t, h => by
    have hsub : ∀ v ∈ t, p v = false → ∀ u ∈ t, p u = true → v.version ≠ u.version :=
      fun v hv hpv u hu hpu =>
        h v (List.mem_cons_of_mem _ hv) hpv u (List.mem_cons_of_mem _ hu) hpu
    by_cases hp : p a = true
    · rw [List.filter_cons_of_pos hp]
      simp only [remove_all]
      have hra : list_remove_version (a :: t) a = some t := by
        simp [list_remove_version, Version.eq]
      rw [hra]
      show remove_all t (t.filter p) = some ((a :: t).filter fun v => !(p v))
      rw [remove_all_filter p t hsub, List.filter_cons_of_neg (by simp [hp])]
    · have hp2 : p a = false := by
        revert hp
        cases p a <;> simp
      rw [List.filter_cons_of_neg (by simp [hp2])]
      have hall : ∀ x ∈ t.filter p, a.eq x = false := by
        intro x hx
        have hxt := List.mem_of_mem_filter hx
        have hpx := List.of_mem_filter hx
        have hne := h a (List.mem_cons_self a t) hp2 x (List.mem_cons_of_mem _ hxt) hpx
        simp only [Version.eq, beq_eq_false_iff_ne]
        exact hne
      rw [remove_all_cons_ne (t.filter p) t a hall, remove_all_filter p t hsub,
        List.filter_cons_of_pos (by simp [hp2])]
      rfl

/-- Counterexample to claim C7 as stated: with historical version A = 1.00.00
on commit aaa111 and head version B = 1.00.00 on commit beef22 (the HEAD
commit), the partition returns historical list [B]: the list still contains
the version whose commit id equals HEAD, because the removal step removes the
first order-key-equal entry A instead of the head entry B. -/
theorem c7_counterexample :
    get_head_versions [smpl_v100_old, smpl_v100_head] "beef22" =
      some (some [smpl_v100_head], [smpl_v100_head]) ∧
    smpl_v100_head.sha1 = some "beef22" ∧
    smpl_v100_old.sha1 ≠ some "beef22" := by decide

/-- Claim C7 (amended): the head list is exactly the versions whose commit id
equals HEAD in their original order, and is absent (None) rather than empty
when there is no such version; and, provided no version off HEAD shares an
order key with a version on HEAD — the situation the counterexample exhibits
— the remaining historical list is exactly the versions whose commit id
differs from HEAD, in their original order. -/
theorem c7_partition_amended (versions : List Version) (head_sha1 : String)
    (hsep : ∀ v ∈ versions, v.sha1 ≠ some head_sha1 →
        ∀ u ∈ versions, u.sha1 = some head_sha1 → v.version ≠ u.version) :
    get_head_versions versions head_sha1 =
      some (if versions.filter (fun v => v.sha1 == some head_sha1) = [] then
          (none, versions)
        else
          (some (versions.filter (fun v => v.sha1 == some head_sha1)),
           versions.filter (fun v => !(v.sha1 == some head_sha1)))) := by
  by_cases hemp : versions.filter (fun v => v.sha1 == some head_sha1) = []
  · rw [if_pos hemp]
    unfold get_head_versions
    rw [hemp]
    simp
  · rw [if_neg hemp]
    unfold get_head_versions
    have hlen : (versions.filter (fun v => v.sha1 == some head_sha1)).length > 0 := by
      cases hf : versions.filter (fun v => v.sha1 == some head_sha1) with
      | nil => exact absurd hf hemp
      | cons x xs => simp
    rw [if_pos hlen, remove_all_filter (fun v => v.sha1 == some head_sha1) versions ?_]
    · rfl
    · intro v hv hpv u hu hpu
      exact hsep v hv (by simpa using hpv) u hu (by simpa using hpu)

/-- Witness for the amended C7: historical 1.01.00 on ccc333 and head 1.00.00
on beef22 partition cleanly. -/
theorem c7_witness :
    (∀ v ∈ [smpl_v110, smpl_v100_head], v.sha1 ≠ some "beef22" →
        ∀ u ∈ [smpl_v110, smpl_v100_head], u.sha1 = some "beef22" → v.version ≠ u.version) ∧
    get_head_versions [smpl_v110, smpl_v100_head] "beef22" =
      some (some [smpl_v100_head], [smpl_v110]) := by
  have h := c7_partition_amended [smpl_v110, smpl_v100_head] "beef22" (by decide)
  exact ⟨by decide, h.trans (by decide)⟩

/-- The concatenated header text assembled by `write_version_file` equals the
specification-side line-joined header template. -/
theorem file_text_eq_spec (m n : Nat) (hash : String) :
    "//--------------------------------------------------------------------------------------------------\n" ++
    "// Notes:\n" ++
    "// This file is autogenerated by the Python script \"version_from_tag.py\" invoked during building.\n" ++
    "// Do not edit this file as changes will be overwritten during building.\n" ++
    "//--------------------------------------------------------------------------------------------------\n" ++
    "#ifndef _SWPACKAGEVERSION_H_\n" ++
    "#define _SWPACKAGEVERSION_H_\n" ++
    "#define SW_VER_MAJOR " ++ toString m ++ "\n" ++
    "#define SW_VER_MINOR " ++ toString n ++ "\n" ++
    "#define SW_REVISIONHASH \"" ++ hash ++ "\"\n" ++
    "#endif" = spec_header_text m n hash := by
  simp [spec_header_text, String.intercalate, String.intercalate.go, ← String.append_assoc]
  rw [String.append_assoc _ "\"" "\n"]
  simp

set_option maxRecDepth 40000 in
/-- Claim C9: on success the generated header is exactly the five-line banner,
the two guard lines, `#define SW_VER_MAJOR`/`#define SW_VER_MINOR` with the
head version numbers (90 and 0 when no head version exists) and
`#define SW_REVISIONHASH` holding the 12-character abbreviated commit id when
working tree and index are both clean, or the full commit id prefixed with
`+` when either is dirty; in particular for head version 2.01.00 and commit
abc123abc123 the three version lines read exactly as claimed. -/
theorem c9_header_bytes (sha wt idx : String) :
    (∀ (h0 : Version) (rest : List Version),
      version_file_content (some (h0 :: rest)) sha wt idx =
        some (spec_header_text h0.major_ver h0.minor_ver
          (if wt = "" ∧ idx = "" then sha.take 12 else "+" ++ sha))) ∧
    version_file_content none sha wt idx =
      some (spec_header_text 90 0 (if wt = "" ∧ idx = "" then sha.take 12 else "+" ++ sha)) ∧
    spec_header_text 2 1 "abc123abc123" =
      "//--------------------------------------------------------------------------------------------------\n// Notes:\n// This file is autogenerated by the Python script \"version_from_tag.py\" invoked during building.\n// Do not edit this file as changes will be overwritten during building.\n//--------------------------------------------------------------------------------------------------\n#ifndef _SWPACKAGEVERSION_H_\n#define _SWPACKAGEVERSION_H_\n#define SW_VER_MAJOR 2\n#define SW_VER_MINOR 1\n#define SW_REVISIONHASH \"abc123abc123\"\n#endif" := by
  have hcond : (if (wt != "" || idx != "") = true then "+" ++ sha else sha.take 12) =
      (if wt = "" ∧ idx = "" then sha.take 12 else "+" ++ sha) := by
    by_cases hw : wt = "" <;> by_cases hi : idx = "" <;> simp [hw, hi]
  refine ⟨?_, ?_, ?_⟩
  · intro h0 rest
    simp only [version_file_content, Option.map_some]
    rw [hcond]
    exact congrArg some (file_text_eq_spec h0.major_ver h0.minor_ver _)
  · simp only [version_file_content, Option.map_some]
    rw [hcond]
    exact congrArg some (file_text_eq_spec 90 0 _)
  · simp only [spec_header_text, String.intercalate, String.intercalate.go]
    rfl

/-- Claim C3: the six checks run in the fixed order duplicate, skip,
annotation, multiplicity, clean-tree, stray-tag; the first fatal error aborts
the rest of the pipeline and is returned together with every warning appended
before it; and when no head version exists no check runs, the pipeline
reports success with no warnings, and the whole run returns error code 0
with an empty warning list. -/
theorem c3_pipeline_order (hist : List Version) (wt idx : String)
    (ot : Option String → String) (tags : List String) (w0 : List String) :
    check_head hist none wt idx ot tags w0 = some (.ok w0) ∧
    (∀ (versions : List Version) (sha : String),
      get_head_versions versions sha = some (none, hist) →
      run versions sha wt idx ot tags = some ⟨0, none, []⟩) ∧
    ∀ (h0 : Version) (hvrest : List Version),
      (∀ e, check_head_version_already_used h0 hist = .error e →
        check_head hist (some (h0 :: hvrest)) wt idx ot tags w0 = some (.error (e, w0))) ∧
      (check_head_version_already_used h0 hist = .ok () →
        (check_head_version_skipped_a_version h0 hist w0 = none →
          check_head hist (some (h0 :: hvrest)) wt idx ot tags w0 = none) ∧
        (∀ e, check_head_version_skipped_a_version h0 hist w0 = some (.error e) →
          check_head hist (some (h0 :: hvrest)) wt idx ot tags w0 = some (.error (e, w0))) ∧
        ∀ w1, check_head_version_skipped_a_version h0 hist w0 = some (.ok w1) →
          (∀ e, check_tag_is_lightweight (h0 :: hvrest) ot = .error e →
            check_head hist (some (h0 :: hvrest)) wt idx ot tags w0 = some (.error (e, w1))) ∧
          (check_tag_is_lightweight (h0 :: hvrest) ot = .ok () →
            (∀ e, check_head_has_multiple_versions (h0 :: hvrest) = .error e →
              check_head hist (some (h0 :: hvrest)) wt idx ot tags w0 = some (.error (e, w1))) ∧
            (check_head_has_multiple_versions (h0 :: hvrest) = .ok () →
              (∀ e, check_head_has_local_changes wt idx = .error e →
                check_head hist (some (h0 :: hvrest)) wt idx ot tags w0 =
                  some (.error (e, w1))) ∧
              (check_head_has_local_changes wt idx = .ok () →
                check_head hist (some (h0 :: hvrest)) wt idx ot tags w0 =
                  some (.ok (check_head_has_version_and_nonversion_tag tags w1)))))) := by
  refine ⟨rfl, ?_, ?_⟩
  · intro versions sha hget
    simp only [run, hget, Option.some_bind]
    simp [check_head, version_file_content]
  · intro h0 hvrest
    refine ⟨fun e he => by simp only [check_head, he], fun hok => ⟨?_, ?_, ?_⟩⟩
    · intro hnone
      simp only [check_head, hok, hnone]
    · intro e he
      simp only [check_head, hok, he]
    · intro w1 hok2
      refine ⟨fun e he => by simp only [check_head, hok, hok2, he], fun hl => ⟨?_, ?_⟩⟩
      · intro e he
        simp only [check_head, hok, hok2, hl, he]
      · intro hm
        refine ⟨fun e he => by simp only [check_head, hok, hok2, hl, hm, he], fun hc => ?_⟩
        simp only [check_head, hok, hok2, hl, hm, hc]

/-- Witness for C3: a head tagged 1.00.00 behind the historical 1.01.00 with a
lightweight tag first collects the earlier-checkout warning, then aborts at
the annotation check with code 4, returning that warning alongside the
error. -/
theorem c3_witness :
    check_head_version_already_used smpl_v100_head [smpl_v110] = .ok () ∧
    check_head_version_skipped_a_version smpl_v100_head [smpl_v110] [] =
      some (.ok [skip_warning_msg smpl_v100_head smpl_v110]) ∧
    check_tag_is_lightweight [smpl_v100_head] lightweight_objecttype =
      .error ⟨4, lightweight_msg smpl_v100_head⟩ ∧
    check_head [smpl_v110] (some [smpl_v100_head]) "" "" lightweight_objecttype [] [] =
      some (.error (⟨4, lightweight_msg smpl_v100_head⟩,
        [skip_warning_msg smpl_v100_head smpl_v110])) := by
  have h := c3_pipeline_order [smpl_v110] "" "" lightweight_objecttype [] []
  have h2 := ((h.2.2 smpl_v100_head []).2 (by decide)).2.2
    [skip_warning_msg smpl_v100_head smpl_v110] (by decide)
  exact ⟨by decide, by decide, by decide,
    h2.1 ⟨4, lightweight_msg smpl_v100_head⟩ (by decide)⟩
